import Mathlib

/-
Verification of the metadata parsing and normalization engine of
`metadata_extractor.py` (`MetadataExtractorImproved.parse_comfyui_metadata`).

The Python data is modelled by a JSON-like `Value` type.  Python floats are
modelled as exact rationals (every Python float is a dyadic rational); the
float-specific rendering corner cases (exponent notation for very large or
very small magnitudes, shortest-round-trip repr) are outside the inputs the
program and the claims exercise and are modelled by the exact decimal
expansion.  Python exceptions are modelled with `Except`: every operation of
the source that can raise (attribute access on a non-dict, `int()` / `float()`
coercion, subscripting, formatting) returns `Except Unit _`, and the
function-level `try/except` of `parse_comfyui_metadata` is the outer
`Except PResult PResult` whose `error` payload is the partially mutated
result dictionary at the moment the exception escaped.
-/

namespace ComfyMeta

/-- JSON-like semi-structured value: the payloads `parse_comfyui_metadata`
manipulates (scalars, sequences, string-keyed mappings). -/
inductive Value where
  | null : Value
  | bool : Bool → Value
  | int : Int → Value
  | float : ℚ → Value
  | str : String → Value
  | list : List Value → Value
  | dict : List (String × Value) → Value
deriving Repr

mutual

/-- Boolean structural equality on `Value`. -/
def beqV : Value → Value → Bool
  | .null, .null => true
  | .bool a, .bool b => a == b
  | .int a, .int b => a == b
  | .float a, .float b => a == b
  | .str a, .str b => a == b
  | .list a, .list b => beqVL a b
  | .dict a, .dict b => beqVKV a b
  | _, _ => false

def beqVL : List Value → List Value → Bool
  | [], [] => true
  | a :: as, b :: bs => beqV a b && beqVL as bs
  | _, _ => false

def beqVKV : List (String × Value) → List (String × Value) → Bool
  | [], [] => true
  | (k, a) :: as, (l, b) :: bs => k == l && beqV a b && beqVKV as bs
  | _, _ => false

end

mutual

theorem beqV_refl : ∀ a : Value, beqV a a = true
  | .null => rfl
  | .bool a => by simp [beqV]
  | .int a => by simp [beqV]
  | .float a => by simp [beqV]
  | .str a => by simp [beqV]
  | .list a => by simp [beqV, beqVL_refl a]
  | .dict a => by simp [beqV, beqVKV_refl a]

theorem beqVL_refl : ∀ a : List Value, beqVL a a = true
  | [] => rfl
  | a :: as => by simp [beqVL, beqV_refl a, beqVL_refl as]

theorem beqVKV_refl : ∀ a : List (String × Value), beqVKV a a = true
  | [] => rfl
  | (k, a) :: as => by simp [beqVKV, beqV_refl a, beqVKV_refl as]

end

mutual

theorem beqV_eq : ∀ a b : Value, beqV a b = true → a = b
  | .null, .null, _ => rfl
  | .bool a, .bool b, h => by simp [beqV] at h; simp [h]
  | .int a, .int b, h => by simp [beqV] at h; simp [h]
  | .float a, .float b, h => by simp [beqV] at h; simp [h]
  | .str a, .str b, h => by simp [beqV] at h; simp [h]
  | .list a, .list b, h => by
      simp only [beqV] at h
      simp [beqVL_eq a b h]
  | .dict a, .dict b, h => by
      simp only [beqV] at h
      simp [beqVKV_eq a b h]

theorem beqVL_eq : ∀ a b : List Value, beqVL a b = true → a = b
  | [], [], _ => rfl
  | a :: as, b :: bs, h => by
      simp only [beqVL, Bool.and_eq_true] at h
      simp [beqV_eq a b h.1, beqVL_eq as bs h.2]

theorem beqVKV_eq : ∀ a b : List (String × Value), beqVKV a b = true → a = b
  | [], [], _ => rfl
  | (k, a) :: as, (l, b) :: bs, h => by
      simp only [beqVKV, Bool.and_eq_true] at h
      obtain ⟨⟨hk, ha⟩, has⟩ := h
      simp only [beq_iff_eq] at hk
      simp [hk, beqV_eq a b ha, beqVKV_eq as bs has]

end

instance : DecidableEq Value := fun a b =>
  if h : beqV a b = true then
    .isTrue (beqV_eq a b h)
  else
    .isFalse (fun he => h (he ▸ beqV_refl a))

/-- A raw metadata record: the string-keyed mapping the loaders hand to
`parse_comfyui_metadata`.  Iteration order of a Python dict is its
insertion order, i.e. the order of this list; keys are unique in any
record a Python dict can produce. -/
abbrev RawRecord := List (String × Value)

/-- First-match association lookup (Python dict lookup; a genuine dict has
unique keys, so first match is the match). -/
def lookupKey : RawRecord → String → Option Value
  | [], _ => none
  | (k, v) :: rest, key => if k == key then some v else lookupKey rest key

/-- `key in d` for a dict. -/
def hasKey (kvs : RawRecord) (key : String) : Bool :=
  (lookupKey kvs key).isSome

/-- `d.get(key, default)` for a dict. -/
def getD (kvs : RawRecord) (key : String) (d : Value) : Value :=
  (lookupKey kvs key).getD d

def Value.isList : Value → Bool
  | .list _ => true
  | _ => false

def Value.isDict : Value → Bool
  | .dict _ => true
  | _ => false

/-- Python truthiness (`if x:`). -/
def truthy : Value → Bool
  | .null => false
  | .bool b => b
  | .int n => n != 0
  | .float q => q != 0
  | .str s => s != ""
  | .list vs => !vs.isEmpty
  | .dict kvs => !kvs.isEmpty

/-- `x.get(key, default)`: only dicts have a `.get` method; on any other
value this is an `AttributeError`. -/
def pyGetAttrD : Value → String → Value → Except Unit Value
  | .dict kvs, key, d => .ok (getD kvs key d)
  | _, _, _ => .error ()

/-- `x[key]` with a string key: dict lookup (`KeyError` when absent);
`TypeError` on lists, strings and scalars. -/
def pyGetItem : Value → String → Except Unit Value
  | .dict kvs, key =>
    match lookupKey kvs key with
    | some v => .ok v
    | none => .error ()
  | _, _ => .error ()

/-- Does `v` equal the Python string `k`?  (Python `==` between a `str`
and a non-`str` is `False`.) -/
def isStrEq (k : String) : Value → Bool
  | .str s => s == k
  | _ => false

/-- `key in x`: key membership for dicts, element membership for lists,
substring test for strings, `TypeError` otherwise. -/
def pyContains (key : String) : Value → Except Unit Bool
  | .dict kvs => .ok (hasKey kvs key)
  | .list vs => .ok (vs.any (isStrEq key))
  | .str s => .ok (decide (2 ≤ (s.splitOn key).length))
  | _ => .error ()

/-- `x[0]`: first element of a list (`IndexError` when empty), first
character of a string, error otherwise (our dicts are string-keyed, so
`d[0]` is a `KeyError`). -/
def pyIndex0 : Value → Except Unit Value
  | .list (v :: _) => .ok v
  | .str s =>
    match s.data with
    | c :: _ => .ok (.str (String.singleton c))
    | [] => .error ()
  | _ => .error ()

/-- `len(x)`: defined for strings, lists and dicts; `TypeError` otherwise. -/
def pyLen : Value → Except Unit Nat
  | .str s => .ok s.length
  | .list vs => .ok vs.length
  | .dict kvs => .ok kvs.length
  | _ => .error ()

/-- `x.items()`: only dicts have it (`AttributeError` otherwise). -/
def pyItems : Value → Except Unit (List (String × Value))
  | .dict kvs => .ok kvs
  | _ => .error ()

/-- Characters `str.strip()` removes (ASCII whitespace; sufficient for the
strings `int()` / `float()` accept here). -/
def isSpaceChar (c : Char) : Bool :=
  c == ' ' || c == '\t' || c == '\n' || c == '\r' || c.toNat == 11 || c.toNat == 12

def stripWs (s : String) : List Char :=
  ((s.data.dropWhile isSpaceChar).reverse.dropWhile isSpaceChar).reverse

def digitsToNat? (cs : List Char) : Option Nat :=
  if cs ≠ [] ∧ cs.all Char.isDigit then
    some (cs.foldl (fun acc c => 10 * acc + (c.toNat - 48)) 0)
  else
    none

/-- `int(s)` for a string `s`: optional surrounding whitespace, optional
sign, one or more decimal digits. -/
def parseIntStr (s : String) : Option Int :=
  match stripWs s with
  | '+' :: cs => (digitsToNat? cs).map Int.ofNat
  | '-' :: cs => (digitsToNat? cs).map (fun n => -(n : Int))
  | cs => (digitsToNat? cs).map Int.ofNat

/-- Truncation toward zero: `int()` applied to a float. -/
def truncQ (q : ℚ) : Int :=
  if 0 ≤ q then Rat.floor q else Rat.ceil q

/-- `int(x)`: ints and bools pass through, floats truncate, strings parse
as decimal integers (`ValueError` on failure), everything else is a
`TypeError`. -/
def pyToInt : Value → Except Unit Int
  | .int n => .ok n
  | .bool b => .ok (if b then 1 else 0)
  | .float q => .ok (truncQ q)
  | .str s =>
    match parseIntStr s with
    | some n => .ok n
    | none => .error ()
  | _ => .error ()

def natOfDigits (cs : List Char) : Nat :=
  cs.foldl (fun acc c => 10 * acc + (c.toNat - 48)) 0

/-- Rational arithmetic below is phrased through `mkRat` on numerators and
denominators rather than `Rat.mul` / `Rat.add` / `Rat.div`, which are
`@[irreducible]`; the values are the same. -/
def pow10 (k : Nat) : Nat := 10 ^ k

/-- Parse the numeric part of a float literal `digits [. digits] [exp]`,
given an already-consumed optional sign, as numerator / denominator. -/
def parseFloatBody (cs : List Char) : Option ℚ :=
  let intD := cs.takeWhile Char.isDigit
  let rest := cs.dropWhile Char.isDigit
  let withFrac : Option (Nat × Nat × List Char) :=
    match rest with
    | '.' :: rest2 =>
      let fracD := rest2.takeWhile Char.isDigit
      let rest3 := rest2.dropWhile Char.isDigit
      if intD = [] ∧ fracD = [] then
        none
      else
        some (natOfDigits intD * pow10 fracD.length + natOfDigits fracD,
              pow10 fracD.length, rest3)
    | _ =>
      if intD = [] then none
      else some (natOfDigits intD, 1, rest)
  match withFrac with
  | none => none
  | some (num, den, rest3) =>
    match rest3 with
    | [] => some (mkRat num den)
    | 'e' :: ecs => parseFloatExp num den ecs
    | 'E' :: ecs => parseFloatExp num den ecs
    | _ => none
where
  parseFloatExp (num den : Nat) (ecs : List Char) : Option ℚ :=
    match ecs with
    | '+' :: ds => (digitsToNat? ds).map (fun e => mkRat (num * pow10 e) den)
    | '-' :: ds => (digitsToNat? ds).map (fun e => mkRat num (den * pow10 e))
    | ds => (digitsToNat? ds).map (fun e => mkRat (num * pow10 e) den)

/-- `float(s)` for a string: optional whitespace, optional sign, decimal
literal with optional fraction and exponent.  (`inf` / `nan` literals are
not representable in the exact-rational model and are treated as failures;
no claim exercises them.) -/
def parseFloatStr (s : String) : Option ℚ :=
  match stripWs s with
  | '+' :: cs => parseFloatBody cs
  | '-' :: cs => (parseFloatBody cs).map (fun q => mkRat (-q.num) q.den)
  | cs => parseFloatBody cs

/-- `float(x)`. -/
def pyToFloat : Value → Except Unit ℚ
  | .int n => .ok (mkRat n 1)
  | .bool b => .ok (if b then mkRat 1 1 else mkRat 0 1)
  | .float q => .ok q
  | .str s =>
    match parseFloatStr s with
    | some q => .ok q
    | none => .error ()
  | _ => .error ()

/-! ### Rendering: `str()`, `format(x, ".2f")` and `json.dumps(..., indent=2)` -/

def spaces (n : Nat) : String := String.mk (List.replicate n ' ')

def hexDigit (n : Nat) : Char :=
  if n < 10 then Char.ofNat (48 + n) else Char.ofNat (87 + n)

def hex4 (n : Nat) : String :=
  String.mk [hexDigit (n / 4096 % 16), hexDigit (n / 256 % 16),
             hexDigit (n / 16 % 16), hexDigit (n % 16)]

/-- JSON string escaping as `json.dumps` performs it with the default
`ensure_ascii=True`: `"`, `\`, the short escapes, `\uXXXX` for other
control characters and for every non-ASCII character (surrogate pairs
above the BMP). -/
def escapeJsonChar (c : Char) : String :=
  if c == '"' then "\\\""
  else if c == '\\' then "\\\\"
  else if c == '\n' then "\\n"
  else if c == '\r' then "\\r"
  else if c == '\t' then "\\t"
  else if c.toNat == 8 then "\\b"
  else if c.toNat == 12 then "\\f"
  else if c.toNat < 32 || c.toNat > 126 then
    if c.toNat < 65536 then
      "\\u" ++ hex4 c.toNat
    else
      "\\u" ++ hex4 (55296 + (c.toNat - 65536) / 1024) ++
      "\\u" ++ hex4 (56320 + (c.toNat - 65536) % 1024)
  else
    String.singleton c

def renderJsonString (s : String) : String :=
  "\"" ++ String.join (s.data.map escapeJsonChar) ++ "\""

/-- Smallest `k ≤ 64` with `d ∣ 10 ^ k`, when one exists: a rational has a
finite decimal expansion iff its reduced denominator divides a power of
ten.  Every Python float is dyadic, so for genuinely float-valued inputs
this always succeeds (a double's denominator divides `2 ^ 52`, and its
scale keeps `k` far below 64 for the magnitudes this program meets). -/
def findDecExp (d : Nat) : Option Nat :=
  (List.range 65).find? (fun k => 10 ^ k % d == 0)

def padZeroLeft (k : Nat) (s : String) : String :=
  String.mk (List.replicate (k - s.length) '0') ++ s

/-- Digits after the decimal point: the `k`-digit expansion of `fp` with
trailing zeros stripped, at least one digit kept (`repr(24.0) = "24.0"`). -/
def fracDigits (k : Nat) (fp : Nat) : String :=
  if k = 0 then "0"
  else
    match ((padZeroLeft k (toString fp)).data.reverse.dropWhile (· == '0')).reverse with
    | [] => "0"
    | ds => String.mk ds

def renderFloatAbs (num den : Nat) : String :=
  match findDecExp den with
  | some k =>
    let n := num * (10 ^ k / den)
    toString (n / 10 ^ k) ++ "." ++ fracDigits k (n % 10 ^ k)
  | none => toString num ++ "/" ++ toString den

/-- `repr` / `str` of a float, in the exact-rational model: plain decimal
expansion (Python's exponent notation for extreme magnitudes is not
modelled; no claim reaches it). -/
def renderFloat (q : ℚ) : String :=
  if q.num < 0 then "-" ++ renderFloatAbs q.num.natAbs q.den
  else renderFloatAbs q.num.natAbs q.den

/-- Round `num / den` (nonnegative, `den > 0`) to the nearest integer,
ties to even — the rounding `format(x, ".2f")` applies to the exact value.
The fractional part `(num % den) / den` is compared with `1 / 2` by
comparing `2 * (num % den)` with `den`. -/
def round2HalfEvenN (num den : Nat) : Nat :=
  let f := num / den
  let twice := 2 * (num % den)
  if twice < den then f
  else if den < twice then f + 1
  else if f % 2 = 0 then f else f + 1

def format2fAbs (num den : Nat) : String :=
  let n := round2HalfEvenN (num * 100) den
  toString (n / 100) ++ "." ++ (if n % 100 < 10 then "0" else "") ++ toString (n % 100)

def format2fQ (q : ℚ) : String :=
  if q.num < 0 then "-" ++ format2fAbs q.num.natAbs q.den
  else format2fAbs q.num.natAbs q.den

/-- `f"{x:.2f}"`: numbers format (bools are ints); strings and containers
raise (`ValueError` / `TypeError`). -/
def pyFormat2f : Value → Except Unit String
  | .int n => .ok (format2fQ (mkRat n 1))
  | .float q => .ok (format2fQ q)
  | .bool b => .ok (format2fQ (if b then mkRat 1 1 else mkRat 0 1))
  | _ => .error ()

/-- Python repr escaping inside a quoted string literal (backslash, the
quote character, short escapes; `\xXX` for other control characters). -/
def escapeReprChar (quote : Char) (c : Char) : String :=
  if c == '\\' then "\\\\"
  else if c == quote then "\\" ++ String.singleton quote
  else if c == '\n' then "\\n"
  else if c == '\r' then "\\r"
  else if c == '\t' then "\\t"
  else if c.toNat < 32 then "\\x" ++ String.mk [hexDigit (c.toNat / 16), hexDigit (c.toNat % 16)]
  else String.singleton c

/-- `repr` of a string: single-quoted, double-quoted when the string holds
a single quote but no double quote. -/
def reprStr (s : String) : String :=
  let sq := Char.ofNat 39
  let quote := if s.contains sq && !s.contains '"' then '"' else sq
  String.singleton quote ++ String.join (s.data.map (escapeReprChar quote)) ++ String.singleton quote

mutual

/-- `repr(v)`: quoted strings; containers recursively `repr` their
elements. -/
def pyRepr : Value → String
  | .str s => reprStr s
  | .int n => toString n
  | .float q => renderFloat q
  | .bool b => if b then "True" else "False"
  | .null => "None"
  | .list vs => "[" ++ String.intercalate ", " (pyReprList vs) ++ "]"
  | .dict kvs => "\x7b" ++ String.intercalate ", " (pyReprKvs kvs) ++ "\x7d"

def pyReprList : List Value → List String
  | [] => []
  | v :: vs => pyRepr v :: pyReprList vs

def pyReprKvs : List (String × Value) → List String
  | [] => []
  | (k, v) :: kvs => (reprStr k ++ ": " ++ pyRepr v) :: pyReprKvs kvs

end

/-- `str(v)` (used by the f-string building the `WxH` part of
`file_info`): identity on strings, `repr` otherwise. -/
def pyStr : Value → String
  | .str s => s
  | v => pyRepr v

mutual

/-- `json.dumps(v, indent=2)` at nesting level `lvl` (items of a composite
are printed at `lvl + 1`, its closing bracket back at `lvl`). -/
def dumpVal (lvl : Nat) : Value → String
  | .null => "null"
  | .bool b => if b then "true" else "false"
  | .int n => toString n
  | .float q => renderFloat q
  | .str s => renderJsonString s
  | .list [] => "[]"
  | .list (v :: vs) =>
    "[\n" ++ String.intercalate ",\n" (dumpItems (lvl + 1) (v :: vs)) ++
    "\n" ++ spaces (2 * lvl) ++ "]"
  | .dict [] => "\x7b\x7d"
  | .dict (kv :: kvs) =>
    "\x7b\n" ++ String.intercalate ",\n" (dumpPairs (lvl + 1) (kv :: kvs)) ++
    "\n" ++ spaces (2 * lvl) ++ "\x7d"

def dumpItems (lvl : Nat) : List Value → List String
  | [] => []
  | v :: vs => (spaces (2 * lvl) ++ dumpVal lvl v) :: dumpItems lvl vs

def dumpPairs (lvl : Nat) : List (String × Value) → List String
  | [] => []
  | (k, v) :: kvs =>
    (spaces (2 * lvl) ++ renderJsonString k ++ ": " ++ dumpVal lvl v) :: dumpPairs lvl kvs

end

/-- `json.dumps(metadata, indent=2)` on the full raw record. -/
def dumpsRecord (m : RawRecord) : String :=
  dumpVal 0 (.dict m)

/-! ### The `result` dictionary and the node scan -/

/-- The `result` dictionary of `parse_comfyui_metadata`.  The prompt and
sampler slots hold whatever value the node supplied (the Python code
stores `inputs.get(...)` verbatim), hence `Value`. -/
structure PResult where
  positive_prompt : Value
  negative_prompt : Value
  seed : Int
  steps : Int
  cfg : ℚ
  sampler : Value
  scheduler : String
  metadata_json : String
  file_info : String
deriving Repr, DecidableEq

/-- The initial `result` dictionary (lines 159-169 of the source). -/
def defaultResult : PResult :=
  { positive_prompt := .str ""
    negative_prompt := .str ""
    seed := 0
    steps := 0
    cfg := 0
    sampler := .str ""
    scheduler := ""
    metadata_json := "\x7b\x7d"
    file_info := "" }

/-- Loop state of the node scan: the mutable `result` plus the
`positive_found` / `negative_found` flags. -/
structure ScanState where
  res : PResult
  positive_found : Bool
  negative_found : Bool
deriving Repr, DecidableEq

def initState : ScanState := ⟨defaultResult, false, false⟩

def textEncodeTypes : List String :=
  ["CLIPTextEncode", "CLIPTextEncodeSDXL", "CLIPTextEncodeFlux"]

def schedulerTypes : List String :=
  ["LTXVScheduler", "BasicScheduler", "KScheduler"]

def guiderTypes : List String :=
  ["CFGGuider", "DualCFGGuider"]

/-- `class_type in [...]`: only a string can equal a string. -/
def classTypeIn (ct : Value) (ts : List String) : Bool :=
  match ct with
  | .str s => ts.contains s
  | _ => false

/-- Prompt extraction (lines 199-209): first non-empty text becomes the
positive prompt, the second the negative, later ones are ignored. -/
def promptBlock (ct inputs : Value) (st : ScanState) : Except PResult ScanState :=
  if classTypeIn ct textEncodeTypes then
    match pyGetAttrD inputs "text" (.str "") with
    | .error _ => .error st.res
    | .ok t =>
      if truthy t then
        if st.positive_found = false then
          .ok ⟨{ st.res with positive_prompt := t }, true, st.negative_found⟩
        else if st.negative_found = false then
          .ok ⟨{ st.res with negative_prompt := t }, st.positive_found, true⟩
        else
          .ok st
      else
        .ok st
  else
    .ok st

/-- Seed extraction (lines 212-221).  When `noise_seed` is present,
`int()` is applied to it directly, whatever its shape; the list-fallback
`elif` runs only when the key membership test was false, and its inner
`try` swallows every failure. -/
def seedBlock (ct inputs : Value) (st : ScanState) : Except PResult ScanState :=
  if classTypeIn ct ["RandomNoise"] then
    match pyContains "noise_seed" inputs with
    | .error _ => .error st.res
    | .ok true =>
      match pyGetItem inputs "noise_seed" with
      | .error _ => .error st.res
      | .ok v =>
        match pyToInt v with
        | .error _ => .error st.res
        | .ok n => .ok ⟨{ st.res with seed := n }, st.positive_found, st.negative_found⟩
    | .ok false =>
      match pyGetAttrD inputs "noise_seed" .null with
      | .error _ => .error st.res
      | .ok v =>
        if v.isList then
          match (do
            let x ← pyGetItem inputs "noise_seed"
            let y ← pyIndex0 x
            pyToInt y : Except Unit Int) with
          | .ok n => .ok ⟨{ st.res with seed := n }, st.positive_found, st.negative_found⟩
          | .error _ => .ok st
        else
          .ok st
  else
    .ok st

/-- Sampler extraction (lines 224-228). -/
def samplerBlock (ct inputs : Value) (st : ScanState) : Except PResult ScanState :=
  if classTypeIn ct ["KSamplerSelect"] then
    match pyGetAttrD inputs "sampler_name" (.str "") with
    | .error _ => .error st.res
    | .ok sn =>
      if truthy sn then
        .ok ⟨{ st.res with sampler := sn }, st.positive_found, st.negative_found⟩
      else
        .ok st
  else
    .ok st

/-- Steps extraction (lines 231-234). -/
def stepsBlock (ct inputs : Value) (st : ScanState) : Except PResult ScanState :=
  if classTypeIn ct schedulerTypes then
    match pyContains "steps" inputs with
    | .error _ => .error st.res
    | .ok true =>
      match pyGetItem inputs "steps" with
      | .error _ => .error st.res
      | .ok v =>
        match pyToInt v with
        | .error _ => .error st.res
        | .ok n => .ok ⟨{ st.res with steps := n }, st.positive_found, st.negative_found⟩
    | .ok false => .ok st
  else
    .ok st

/-- CFG extraction (lines 237-240). -/
def cfgBlock (ct inputs : Value) (st : ScanState) : Except PResult ScanState :=
  if classTypeIn ct guiderTypes then
    match pyContains "cfg" inputs with
    | .error _ => .error st.res
    | .ok true =>
      match pyGetItem inputs "cfg" with
      | .error _ => .error st.res
      | .ok v =>
        match pyToFloat v with
        | .error _ => .error st.res
        | .ok q => .ok ⟨{ st.res with cfg := q }, st.positive_found, st.negative_found⟩
    | .ok false => .ok st
  else
    .ok st

/-- Sequencing of fallible steps that mutate the scan state: an escaped
exception carries the state reached so far. -/
def bindE (e : Except PResult ScanState) (f : ScanState → Except PResult ScanState) :
    Except PResult ScanState :=
  match e with
  | .ok st => f st
  | .error r => .error r

/-- The five extraction blocks run in sequence on one node's
`class_type` / `inputs`. -/
def scanBlocks (ct inputs : Value) (st : ScanState) : Except PResult ScanState :=
  bindE (promptBlock ct inputs st) (fun s1 =>
    bindE (seedBlock ct inputs s1) (fun s2 =>
      bindE (samplerBlock ct inputs s2) (fun s3 =>
        bindE (stepsBlock ct inputs s3) (fun s4 =>
          cfgBlock ct inputs s4))))

/-- Processing of one node (lines 191-240): non-dict nodes are skipped;
otherwise `inputs` defaults to `{}`, `class_type` to `""`. -/
def scanNode (st : ScanState) (nd : Value) : Except PResult ScanState :=
  match nd with
  | .dict kvs => scanBlocks (getD kvs "class_type" (.str "")) (getD kvs "inputs" (.dict [])) st
  | _ => .ok st

/-- The `for node_id, node_data in prompt_data.items()` loop. -/
def scanNodes : List (String × Value) → ScanState → Except PResult ScanState
  | [], st => .ok st
  | (_, nd) :: rest, st =>
    match scanNode st nd with
    | .ok st' => scanNodes rest st'
    | .error r => .error r

/-! ### Graph selection, `file_info` assembly, and the whole function -/

/-- Lines 175-178: prefer `metadata['prompt']`; else a mapping-shaped
`metadata['comment']`; else no graph. -/
def selectGraph (m : RawRecord) : Option Value :=
  match lookupKey m "prompt" with
  | some v => some v
  | none =>
    match lookupKey m "comment" with
    | some v => if v.isDict then some v else none
    | none => none

/-- Lines 247-248: `f"{metadata['video_width']}x{metadata['video_height']}"`
— looking up `video_height` with `[]` raises `KeyError` when absent. -/
def widthPart (m : RawRecord) : Except Unit (List String) :=
  match lookupKey m "video_width" with
  | none => .ok []
  | some w =>
    match lookupKey m "video_height" with
    | none => .error ()
    | some h => .ok [pyStr w ++ "x" ++ pyStr h]

/-- Lines 249-250: `f"{metadata['video_fps']:.2f} FPS"`. -/
def fpsPart (m : RawRecord) : Except Unit (List String) :=
  match lookupKey m "video_fps" with
  | none => .ok []
  | some f =>
    match pyFormat2f f with
    | .error _ => .error ()
    | .ok s => .ok [s ++ " FPS"]

/-- Lines 251-252: `f"{metadata['video_duration']:.2f}s"`. -/
def durPart (m : RawRecord) : Except Unit (List String) :=
  match lookupKey m "video_duration" with
  | none => .ok []
  | some d =>
    match pyFormat2f d with
    | .error _ => .error ()
    | .ok s => .ok [s ++ "s"]

/-- Lines 246-254: assemble `file_info` from whichever video properties are
present, `"PNG Image"` when none; any raised formatting/lookup error
escapes to the function-level handler. -/
def buildFileInfo (m : RawRecord) : Except Unit String :=
  match widthPart m with
  | .error _ => .error ()
  | .ok p1 =>
    match fpsPart m with
    | .error _ => .error ()
    | .ok p2 =>
      match durPart m with
      | .error _ => .error ()
      | .ok p3 =>
        let parts := p1 ++ p2 ++ p3
        .ok (if parts.isEmpty then "PNG Image" else String.intercalate " | " parts)

/-- Lines 242-254, after a successful scan ending in state `st`: store the
serialized record, then assemble `file_info`; an exception while
assembling escapes with `metadata_json` already written. -/
def parseAssembleStage (m : RawRecord) (st : ScanState) : Except PResult PResult :=
  match buildFileInfo m with
  | .error _ => .error { st.res with metadata_json := dumpsRecord m }
  | .ok fi => .ok { st.res with metadata_json := dumpsRecord m, file_info := fi }

/-- Lines 191-240: the node loop; an exception escapes with the result as
mutated so far. -/
def parseScanStage (m : RawRecord) (nodes : List (String × Value)) : Except PResult PResult :=
  match scanNodes nodes initState with
  | .error r => .error r
  | .ok st => parseAssembleStage m st

/-- The `.items()` call of line 191: `AttributeError` on a non-dict
graph escapes with the result still at its defaults. -/
def parseItemsStage (m : RawRecord) (pd : Value) : Except PResult PResult :=
  match pyItems pd with
  | .error _ => .error defaultResult
  | .ok nodes => parseScanStage m nodes

/-- The `len(prompt_data)` of the line-184 log message: `TypeError` on an
unsized graph value escapes with the result still at its defaults. -/
def parseLenStage (m : RawRecord) (pd : Value) : Except PResult PResult :=
  match pyLen pd with
  | .error _ => .error defaultResult
  | .ok _ => parseItemsStage m pd

/-- Lines 180-184 on a selected graph value: a falsy graph triggers the
early return with only `metadata_json` written. -/
def parseGraphStage (m : RawRecord) (pd : Value) : Except PResult PResult :=
  if truthy pd = false then
    .ok { defaultResult with metadata_json := dumpsRecord m }
  else
    parseLenStage m pd

/-- The body of the `try` block of `parse_comfyui_metadata` (lines
171-254).  `error r` means an exception escaped with the result dictionary
mutated up to `r`; `ok r` is a normal return (including the no-graph early
return of lines 180-182). -/
def parseTry (m : RawRecord) : Except PResult PResult :=
  match selectGraph m with
  | none => .ok { defaultResult with metadata_json := dumpsRecord m }
  | some pd => parseGraphStage m pd

/-- `parse_comfyui_metadata` (lines 157-261): the `except Exception`
handler logs and falls through to `return result`, so the caller receives
the partially mutated result either way. -/
def parse_comfyui_metadata (m : RawRecord) : PResult :=
  match parseTry m with
  | .ok r => r
  | .error r => r

/-! ### Lemmas: fields the node scan never writes -/

/-- The scan loop never writes `metadata_json`, `file_info` or
`scheduler`; this relation says those fields agree. -/
def auxKeeps (a b : PResult) : Prop :=
  a.metadata_json = b.metadata_json ∧ a.file_info = b.file_info ∧ a.scheduler = b.scheduler

theorem auxKeeps_trans {a b c : PResult} (h1 : auxKeeps a b) (h2 : auxKeeps b c) :
    auxKeeps a c :=
  ⟨h1.1.trans h2.1, h1.2.1.trans h2.2.1, h1.2.2.trans h2.2.2⟩

/-- Both outcomes of a fallible scan step keep the untouched fields. -/
def outKeeps (st : ScanState) : Except PResult ScanState → Prop
  | .ok st' => auxKeeps st'.res st.res
  | .error r => auxKeeps r st.res

theorem promptBlock_keeps (ct inputs : Value) (st : ScanState) :
    outKeeps st (promptBlock ct inputs st) := by
  unfold promptBlock
  repeat' split
  all_goals exact ⟨rfl, rfl, rfl⟩

theorem seedBlock_keeps (ct inputs : Value) (st : ScanState) :
    outKeeps st (seedBlock ct inputs st) := by
  unfold seedBlock
  repeat' split
  all_goals exact ⟨rfl, rfl, rfl⟩

theorem samplerBlock_keeps (ct inputs : Value) (st : ScanState) :
    outKeeps st (samplerBlock ct inputs st) := by
  unfold samplerBlock
  repeat' split
  all_goals exact ⟨rfl, rfl, rfl⟩

theorem stepsBlock_keeps (ct inputs : Value) (st : ScanState) :
    outKeeps st (stepsBlock ct inputs st) := by
  unfold stepsBlock
  repeat' split
  all_goals exact ⟨rfl, rfl, rfl⟩

theorem cfgBlock_keeps (ct inputs : Value) (st : ScanState) :
    outKeeps st (cfgBlock ct inputs st) := by
  unfold cfgBlock
  repeat' split
  all_goals exact ⟨rfl, rfl, rfl⟩

theorem bindE_keeps {st : ScanState} {e : Except PResult ScanState}
    {f : ScanState → Except PResult ScanState}
    (he : outKeeps st e) (hf : ∀ s, outKeeps s (f s)) : outKeeps st (bindE e f) := by
  cases e with
  | ok s =>
    have hfs' := hf s
    unfold bindE
    show outKeeps st (f s)
    cases hfs : f s with
    | ok s' =>
      rw [hfs] at hfs'
      exact auxKeeps_trans hfs' he
    | error r =>
      rw [hfs] at hfs'
      exact auxKeeps_trans hfs' he
  | error r => exact he

theorem scanBlocks_keeps (ct inputs : Value) (st : ScanState) :
    outKeeps st (scanBlocks ct inputs st) := by
  unfold scanBlocks
  exact bindE_keeps (promptBlock_keeps ct inputs st) (fun s1 =>
    bindE_keeps (seedBlock_keeps ct inputs s1) (fun s2 =>
      bindE_keeps (samplerBlock_keeps ct inputs s2) (fun s3 =>
        bindE_keeps (stepsBlock_keeps ct inputs s3) (fun s4 =>
          cfgBlock_keeps ct inputs s4))))

theorem scanNode_keeps (st : ScanState) (nd : Value) : outKeeps st (scanNode st nd) := by
  cases nd with
  | dict kvs => exact scanBlocks_keeps _ _ st
  | _ => exact ⟨rfl, rfl, rfl⟩

theorem scanNodes_keeps (nodes : List (String × Value)) (st : ScanState) :
    outKeeps st (scanNodes nodes st) := by
  induction nodes generalizing st with
  | nil => exact ⟨rfl, rfl, rfl⟩
  | cons p rest ih =>
    obtain ⟨nid, nd⟩ := p
    have h := scanNode_keeps st nd
    unfold scanNodes
    cases hs : scanNode st nd with
    | ok st' =>
      rw [hs] at h
      have h2 := ih st'
      show outKeeps st (scanNodes rest st')
      cases hr : scanNodes rest st' with
      | ok s2 =>
        rw [hr] at h2
        exact auxKeeps_trans h2 h
      | error r =>
        rw [hr] at h2
        exact auxKeeps_trans h2 h
    | error r =>
      rw [hs] at h
      exact h

/-! ### Lemmas: list structure of the scan -/

theorem scanNodes_append (l1 l2 : List (String × Value)) (st : ScanState) :
    scanNodes (l1 ++ l2) st =
      match scanNodes l1 st with
      | .ok st' => scanNodes l2 st'
      | .error r => .error r := by
  induction l1 generalizing st with
  | nil => rfl
  | cons p l1 ih =>
    obtain ⟨nid, nd⟩ := p
    simp only [List.cons_append, scanNodes]
    cases scanNode st nd with
    | ok st' => exact ih st'
    | error r => rfl

theorem scanNodes_insert (pre post : List (String × Value)) (nid : String) (nd : Value)
    (h : ∀ st, scanNode st nd = .ok st) (st : ScanState) :
    scanNodes (pre ++ (nid, nd) :: post) st = scanNodes (pre ++ post) st := by
  induction pre generalizing st with
  | nil =>
    simp only [List.nil_append, scanNodes, h st]
  | cons p pre ih =>
    obtain ⟨k, v⟩ := p
    simp only [List.cons_append, scanNodes]
    cases scanNode st v with
    | ok st' => exact ih st'
    | error r => rfl

/-! ### Lemmas: unrecognized nodes are no-ops -/

/-- A node that matches none of the extraction families: non-mapping
nodes, and mapping nodes whose `class_type` is none of the text-encode,
`RandomNoise`, `KSamplerSelect`, scheduler or guider types (in particular
an absent or non-string `class_type`). -/
def notRecognized (nd : Value) : Bool :=
  match nd with
  | .dict kvs =>
    !(classTypeIn (getD kvs "class_type" (.str "")) textEncodeTypes) &&
    !(classTypeIn (getD kvs "class_type" (.str "")) ["RandomNoise"]) &&
    !(classTypeIn (getD kvs "class_type" (.str "")) ["KSamplerSelect"]) &&
    !(classTypeIn (getD kvs "class_type" (.str "")) schedulerTypes) &&
    !(classTypeIn (getD kvs "class_type" (.str "")) guiderTypes)
  | _ => true

theorem promptBlock_skip (ct inputs : Value) (st : ScanState)
    (h : classTypeIn ct textEncodeTypes = false) :
    promptBlock ct inputs st = .ok st := by
  unfold promptBlock
  rw [h]
  rfl

theorem seedBlock_skip (ct inputs : Value) (st : ScanState)
    (h : classTypeIn ct ["RandomNoise"] = false) :
    seedBlock ct inputs st = .ok st := by
  unfold seedBlock
  rw [h]
  rfl

theorem samplerBlock_skip (ct inputs : Value) (st : ScanState)
    (h : classTypeIn ct ["KSamplerSelect"] = false) :
    samplerBlock ct inputs st = .ok st := by
  unfold samplerBlock
  rw [h]
  rfl

theorem stepsBlock_skip (ct inputs : Value) (st : ScanState)
    (h : classTypeIn ct schedulerTypes = false) :
    stepsBlock ct inputs st = .ok st := by
  unfold stepsBlock
  rw [h]
  rfl

theorem cfgBlock_skip (ct inputs : Value) (st : ScanState)
    (h : classTypeIn ct guiderTypes = false) :
    cfgBlock ct inputs st = .ok st := by
  unfold cfgBlock
  rw [h]
  rfl

theorem bindE_ok (st : ScanState) (f : ScanState → Except PResult ScanState) :
    bindE (.ok st) f = f st := rfl

/-- A node matching no extraction family leaves the scan state untouched
and raises nothing. -/
theorem scanNode_unknown (nd : Value) (h : notRecognized nd = true) (st : ScanState) :
    scanNode st nd = .ok st := by
  cases nd with
  | dict kvs =>
    unfold notRecognized at h
    simp only [Bool.and_eq_true, Bool.not_eq_true'] at h
    obtain ⟨⟨⟨⟨h1, h2⟩, h3⟩, h4⟩, h5⟩ := h
    show scanBlocks (getD kvs "class_type" (.str "")) (getD kvs "inputs" (.dict [])) st = .ok st
    unfold scanBlocks
    simp only [promptBlock_skip _ _ _ h1, bindE_ok, seedBlock_skip _ _ _ h2,
      samplerBlock_skip _ _ _ h3, stepsBlock_skip _ _ _ h4, cfgBlock_skip _ _ _ h5]
  | null => rfl
  | bool b => rfl
  | int n => rfl
  | float q => rfl
  | str s => rfl
  | list vs => rfl

/-! ### Lemmas: unfolding `parse_comfyui_metadata` on a prompt graph -/

theorem lookupKey_cons_ne (k key : String) (v : Value) (rest : RawRecord)
    (h : (k == key) = false) :
    lookupKey ((k, v) :: rest) key = lookupKey rest key := by
  simp [lookupKey, h]

/-- `parseTry` on a record whose first entry is a non-empty `prompt`
graph, reduced past graph selection (the selection, truthiness, `len` and
`.items()` steps all compute on this shape). -/
theorem parseTry_prompt_cons (n : String × Value) (ns : List (String × Value))
    (rest : RawRecord) :
    parseTry (("prompt", Value.dict (n :: ns)) :: rest) =
      match scanNodes (n :: ns) initState with
      | .error r => .error r
      | .ok st =>
        match buildFileInfo (("prompt", Value.dict (n :: ns)) :: rest) with
        | .error _ =>
          .error { st.res with
            metadata_json := dumpsRecord (("prompt", Value.dict (n :: ns)) :: rest) }
        | .ok fi =>
          .ok { st.res with
            metadata_json := dumpsRecord (("prompt", Value.dict (n :: ns)) :: rest),
            file_info := fi } := rfl

/-- On a record whose first entry is a non-empty `prompt` graph, the
function runs the scan, then (on success) stores the serialized record and
assembles `file_info`; a scan exception returns the partial result as is. -/
theorem parse_graph (nodes : List (String × Value)) (rest : RawRecord) (h : nodes ≠ []) :
    parse_comfyui_metadata (("prompt", Value.dict nodes) :: rest) =
      match scanNodes nodes initState with
      | .error r => r
      | .ok st =>
        match buildFileInfo (("prompt", Value.dict nodes) :: rest) with
        | .error _ =>
          { st.res with metadata_json := dumpsRecord (("prompt", Value.dict nodes) :: rest) }
        | .ok fi =>
          { st.res with metadata_json := dumpsRecord (("prompt", Value.dict nodes) :: rest),
                        file_info := fi } := by
  cases nodes with
  | nil => exact absurd rfl h
  | cons n ns =>
    unfold parse_comfyui_metadata
    rw [parseTry_prompt_cons]
    cases scanNodes (n :: ns) initState with
    | error r => rfl
    | ok st =>
      cases buildFileInfo (("prompt", Value.dict (n :: ns)) :: rest) with
      | error e => rfl
      | ok fi => rfl

/-! ### Lemmas: how the scan fills the two prompt slots -/

/-- The part of the scan state the prompt rule reads and writes. -/
structure Quad where
  pos : Value
  neg : Value
  posF : Bool
  negF : Bool
deriving Repr, DecidableEq

def quadOf (st : ScanState) : Quad :=
  ⟨st.res.positive_prompt, st.res.negative_prompt, st.positive_found, st.negative_found⟩

/-- One non-empty text hitting the first-positive-then-negative policy. -/
def promptApply (q : Quad) (t : Value) : Quad :=
  if q.posF = false then { q with pos := t, posF := true }
  else if q.negF = false then { q with neg := t, negF := true }
  else q

/-- The text a node contributes to the prompt rule, given its
`class_type` and `inputs`: its non-empty `inputs.text` when it is a
text-encoding node, nothing otherwise. -/
def textOfCI (ct inputs : Value) : Option Value :=
  if classTypeIn ct textEncodeTypes then
    match inputs with
    | .dict ikvs =>
      let t := getD ikvs "text" (.str "")
      if truthy t then some t else none
    | _ => none
  else none

def textOfNode (nd : Value) : Option Value :=
  match nd with
  | .dict kvs => textOfCI (getD kvs "class_type" (.str "")) (getD kvs "inputs" (.dict []))
  | _ => none

/-- The non-empty texts of the graph's text-encoding nodes, in iteration
order. -/
def textsOf (nodes : List (String × Value)) : List Value :=
  nodes.filterMap (fun p => textOfNode p.2)

theorem promptBlock_quad (ct inputs : Value) (st st' : ScanState)
    (h : promptBlock ct inputs st = .ok st') :
    quadOf st' =
      match textOfCI ct inputs with
      | some t => promptApply (quadOf st) t
      | none => quadOf st := by
  unfold promptBlock at h
  unfold textOfCI
  by_cases hct : classTypeIn ct textEncodeTypes
  · rw [if_pos hct] at h ⊢
    cases inputs with
    | dict ikvs =>
      simp only [pyGetAttrD] at h
      by_cases ht : truthy (getD ikvs "text" (.str ""))
      · rw [if_pos ht] at h
        simp only [ht, if_true]
        unfold promptApply quadOf
        by_cases hp : st.positive_found = false
        · rw [if_pos hp] at h
          injection h with h
          subst h
          simp [hp]
        · rw [if_neg hp] at h
          by_cases hn : st.negative_found = false
          · rw [if_pos hn] at h
            injection h with h
            subst h
            simp [hp, hn]
          · rw [if_neg hn] at h
            injection h with h
            subst h
            simp [hp, hn]
      · rw [if_neg ht] at h
        injection h with h
        subst h
        simp [ht]
    | null => exact absurd h (by simp [pyGetAttrD])
    | bool b => exact absurd h (by simp [pyGetAttrD])
    | int n => exact absurd h (by simp [pyGetAttrD])
    | float q => exact absurd h (by simp [pyGetAttrD])
    | str s => exact absurd h (by simp [pyGetAttrD])
    | list vs => exact absurd h (by simp [pyGetAttrD])
  · rw [if_neg hct] at h ⊢
    injection h with h
    subst h
    rfl

theorem seedBlock_quad (ct inputs : Value) (st st' : ScanState)
    (h : seedBlock ct inputs st = .ok st') : quadOf st' = quadOf st := by
  unfold seedBlock at h
  repeat' split at h
  all_goals first
    | (injection h with h; subst h; rfl)
    | cases h

theorem samplerBlock_quad (ct inputs : Value) (st st' : ScanState)
    (h : samplerBlock ct inputs st = .ok st') : quadOf st' = quadOf st := by
  unfold samplerBlock at h
  repeat' split at h
  all_goals first
    | (injection h with h; subst h; rfl)
    | cases h

theorem stepsBlock_quad (ct inputs : Value) (st st' : ScanState)
    (h : stepsBlock ct inputs st = .ok st') : quadOf st' = quadOf st := by
  unfold stepsBlock at h
  repeat' split at h
  all_goals first
    | (injection h with h; subst h; rfl)
    | cases h

theorem cfgBlock_quad (ct inputs : Value) (st st' : ScanState)
    (h : cfgBlock ct inputs st = .ok st') : quadOf st' = quadOf st := by
  unfold cfgBlock at h
  repeat' split at h
  all_goals first
    | (injection h with h; subst h; rfl)
    | cases h

theorem scanBlocks_quad (ct inputs : Value) (st st' : ScanState)
    (h : scanBlocks ct inputs st = .ok st') :
    quadOf st' =
      match textOfCI ct inputs with
      | some t => promptApply (quadOf st) t
      | none => quadOf st := by
  unfold scanBlocks at h
  cases hp : promptBlock ct inputs st with
  | error r => rw [hp] at h; cases h
  | ok s1 =>
    rw [hp, bindE_ok] at h
    cases hs : seedBlock ct inputs s1 with
    | error r => rw [hs] at h; cases h
    | ok s2 =>
      rw [hs, bindE_ok] at h
      cases hsa : samplerBlock ct inputs s2 with
      | error r => rw [hsa] at h; cases h
      | ok s3 =>
        rw [hsa, bindE_ok] at h
        cases hst : stepsBlock ct inputs s3 with
        | error r => rw [hst] at h; cases h
        | ok s4 =>
          rw [hst, bindE_ok] at h
          rw [cfgBlock_quad ct inputs s4 st' h, stepsBlock_quad ct inputs s3 s4 hst,
            samplerBlock_quad ct inputs s2 s3 hsa, seedBlock_quad ct inputs s1 s2 hs]
          exact promptBlock_quad ct inputs st s1 hp

theorem scanNode_quad (st st' : ScanState) (nd : Value)
    (h : scanNode st nd = .ok st') :
    quadOf st' =
      match textOfNode nd with
      | some t => promptApply (quadOf st) t
      | none => quadOf st := by
  cases nd with
  | dict kvs => exact scanBlocks_quad _ _ st st' h
  | null => injection h with h; subst h; rfl
  | bool b => injection h with h; subst h; rfl
  | int n => injection h with h; subst h; rfl
  | float q => injection h with h; subst h; rfl
  | str s => injection h with h; subst h; rfl
  | list vs => injection h with h; subst h; rfl

theorem scanNodes_quad (nodes : List (String × Value)) (st st' : ScanState)
    (h : scanNodes nodes st = .ok st') :
    quadOf st' = (textsOf nodes).foldl promptApply (quadOf st) := by
  induction nodes generalizing st with
  | nil =>
    injection h with h
    subst h
    rfl
  | cons p rest ih =>
    obtain ⟨nid, nd⟩ := p
    unfold scanNodes at h
    cases hs : scanNode st nd with
    | error r => rw [hs] at h; cases h
    | ok s1 =>
      rw [hs] at h
      have hq := scanNode_quad st s1 nd hs
      have hr := ih s1 h
      unfold textsOf at hr ⊢
      rw [List.filterMap_cons]
      cases hto : textOfNode nd with
      | none =>
        rw [hto] at hq
        rw [hr, hq]
      | some t =>
        rw [hto] at hq
        simp only [List.foldl_cons]
        rw [hr, hq]

theorem foldl_promptApply_full (ts : List Value) (p n : Value) :
    ts.foldl promptApply ⟨p, n, true, true⟩ = ⟨p, n, true, true⟩ := by
  induction ts with
  | nil => rfl
  | cons t ts ih => simpa [promptApply] using ih

/-- Starting from empty slots, the fold keeps the first text as positive
and the second as negative; later texts are ignored. -/
theorem foldl_promptApply_init (ts : List Value) :
    ts.foldl promptApply ⟨.str "", .str "", false, false⟩ =
      match ts with
      | [] => ⟨.str "", .str "", false, false⟩
      | [a] => ⟨a, .str "", true, false⟩
      | a :: b :: _ => ⟨a, b, true, true⟩ := by
  match ts with
  | [] => rfl
  | [a] => rfl
  | a :: b :: rest =>
    show (rest.foldl promptApply (promptApply (promptApply ⟨.str "", .str "", false, false⟩ a) b)) = _
    rw [show promptApply (promptApply ⟨.str "", .str "", false, false⟩ a) b = ⟨a, b, true, true⟩ from rfl]
    exact foldl_promptApply_full rest a b

/-! ### Lemmas: outcome shapes of the whole function -/

theorem parse_of_ok {m : RawRecord} {r : PResult} (h : parseTry m = .ok r) :
    parse_comfyui_metadata m = r := by
  unfold parse_comfyui_metadata
  rw [h]

theorem parse_of_error {m : RawRecord} {r : PResult} (h : parseTry m = .error r) :
    parse_comfyui_metadata m = r := by
  unfold parse_comfyui_metadata
  rw [h]

/-- Every run of the `try` body either returns normally — with
`scheduler` still at its default and `metadata_json` holding the
serialized input — or lets an exception escape with `file_info` and
`scheduler` untouched and `metadata_json` either untouched or (when the
exception arose while assembling `file_info`) already serialized. -/
theorem parseTry_shape (m : RawRecord) :
    (∃ r, parseTry m = .ok r ∧ r.scheduler = "" ∧ r.metadata_json = dumpsRecord m) ∨
    (∃ r, parseTry m = .error r ∧ r.scheduler = "" ∧ r.file_info = "" ∧
      (r.metadata_json = "\x7b\x7d" ∨ r.metadata_json = dumpsRecord m)) := by
  cases hg : selectGraph m with
  | none =>
    refine Or.inl ⟨{ defaultResult with metadata_json := dumpsRecord m }, ?_, rfl, rfl⟩
    unfold parseTry
    rw [hg]
  | some pd =>
    have hpt : parseTry m = parseGraphStage m pd := by
      unfold parseTry
      rw [hg]
    by_cases htr : truthy pd = false
    · refine Or.inl ⟨{ defaultResult with metadata_json := dumpsRecord m }, ?_, rfl, rfl⟩
      rw [hpt]
      unfold parseGraphStage
      rw [if_pos htr]
    · have hgs : parseGraphStage m pd = parseLenStage m pd := by
        unfold parseGraphStage
        rw [if_neg htr]
      cases hl : pyLen pd with
      | error e =>
        refine Or.inr ⟨defaultResult, ?_, rfl, rfl, Or.inl rfl⟩
        rw [hpt, hgs]
        unfold parseLenStage
        rw [hl]
      | ok len =>
        have hls : parseLenStage m pd = parseItemsStage m pd := by
          unfold parseLenStage
          rw [hl]
        cases hi : pyItems pd with
        | error e =>
          refine Or.inr ⟨defaultResult, ?_, rfl, rfl, Or.inl rfl⟩
          rw [hpt, hgs, hls]
          unfold parseItemsStage
          rw [hi]
        | ok nodes =>
          have his : parseItemsStage m pd = parseScanStage m nodes := by
            unfold parseItemsStage
            rw [hi]
          cases hsc : scanNodes nodes initState with
          | error r =>
            have hk := scanNodes_keeps nodes initState
            rw [hsc] at hk
            refine Or.inr ⟨r, ?_, hk.2.2, hk.2.1, Or.inl hk.1⟩
            rw [hpt, hgs, hls, his]
            unfold parseScanStage
            rw [hsc]
          | ok st =>
            have hk := scanNodes_keeps nodes initState
            rw [hsc] at hk
            have hss : parseScanStage m nodes = parseAssembleStage m st := by
              unfold parseScanStage
              rw [hsc]
            cases hb : buildFileInfo m with
            | error e =>
              refine Or.inr ⟨{ st.res with metadata_json := dumpsRecord m }, ?_, hk.2.2, hk.2.1,
                Or.inr rfl⟩
              rw [hpt, hgs, hls, his, hss]
              unfold parseAssembleStage
              rw [hb]
            | ok fi =>
              refine Or.inl ⟨{ st.res with metadata_json := dumpsRecord m, file_info := fi }, ?_,
                hk.2.2, rfl⟩
              rw [hpt, hgs, hls, his, hss]
              unfold parseAssembleStage
              rw [hb]

/-! ### Lemmas: `buildFileInfo` ignores non-video keys -/

theorem buildFileInfo_cons_ne (k : String) (v : Value) (rest : RawRecord)
    (h1 : (k == "video_width") = false) (h2 : (k == "video_height") = false)
    (h3 : (k == "video_fps") = false) (h4 : (k == "video_duration") = false) :
    buildFileInfo ((k, v) :: rest) = buildFileInfo rest := by
  unfold buildFileInfo widthPart fpsPart durPart
  rw [lookupKey_cons_ne _ _ _ _ h1, lookupKey_cons_ne _ _ _ _ h2,
    lookupKey_cons_ne _ _ _ _ h3, lookupKey_cons_ne _ _ _ _ h4]

theorem buildFileInfo_prompt_value (v v' : Value) (rest : RawRecord) :
    buildFileInfo (("prompt", v) :: rest) = buildFileInfo (("prompt", v') :: rest) :=
  (buildFileInfo_cons_ne "prompt" v rest rfl rfl rfl rfl).trans
    (buildFileInfo_cons_ne "prompt" v' rest rfl rfl rfl rfl).symm

/-- The output schema without the audit field `metadata_json`. -/
def visibleFields (r : PResult) :
    Value × Value × Int × Int × ℚ × Value × String × String :=
  (r.positive_prompt, r.negative_prompt, r.seed, r.steps, r.cfg, r.sampler,
   r.scheduler, r.file_info)



/-! ### The claims -/

def c1rec42 : RawRecord :=
  [("prompt", .dict [("1", .dict [("class_type", .str "RandomNoise"),
    ("inputs", .dict [("noise_seed", .int 42)])])])]

def c1recList : RawRecord :=
  [("prompt", .dict [
    ("1", .dict [("class_type", .str "RandomNoise"),
      ("inputs", .dict [("noise_seed", .list [.int 7, .int 0])])]),
    ("2", .dict [("class_type", .str "KSamplerSelect"),
      ("inputs", .dict [("sampler_name", .str "euler")])])])]

def c1recStr : RawRecord :=
  [("prompt", .dict [("1", .dict [("class_type", .str "RandomNoise"),
    ("inputs", .dict [("noise_seed", .str "not-a-number")])])])]

/-- Claim C1, behaviour of the code at the three claimed seed inputs.  A
scalar `noise_seed = 42` does yield `seed = 42`; but with
`noise_seed = [7, 0]` the membership test is true, so `int([7, 0])` is
evaluated and its `TypeError` escapes to the function-level handler —
seed stays 0, the following `KSamplerSelect` node is never scanned and
`metadata_json` stays `"{}"` (the unreachable `elif` was meant to take the
first element).  With `noise_seed = "not-a-number"` the `ValueError` of
`int()` likewise escapes, so the seed stays 0 but the rest of the scan is
aborted rather than unaffected. -/
theorem claim1_seed_paths :
    (parse_comfyui_metadata c1rec42).seed = 42 ∧
    (parse_comfyui_metadata c1recList).seed = 0 ∧
    (parse_comfyui_metadata c1recList).sampler = Value.str "" ∧
    (parse_comfyui_metadata c1recList).metadata_json = "\x7b\x7d" ∧
    (parse_comfyui_metadata c1recStr).seed = 0 ∧
    (parse_comfyui_metadata c1recStr).metadata_json = "\x7b\x7d" :=
  ⟨rfl, rfl, rfl, rfl, rfl, rfl⟩

/-- `metadata['comment']` absent or not mapping-shaped. -/
def commentNotMapping (m : RawRecord) : Bool :=
  match lookupKey m "comment" with
  | none => true
  | some v => !v.isDict

/-- Claim C4: with no `prompt` key and no mapping-shaped `comment`, the
function takes the early return — every field at its default except
`metadata_json`, which holds the pretty-printed full input record. -/
theorem claim4_no_graph_defaults (m : RawRecord) (hp : lookupKey m "prompt" = none)
    (hc : commentNotMapping m = true) :
    parse_comfyui_metadata m = { defaultResult with metadata_json := dumpsRecord m } := by
  have hsel : selectGraph m = none := by
    unfold selectGraph
    rw [hp]
    unfold commentNotMapping at hc
    cases hcl : lookupKey m "comment" with
    | none => rfl
    | some v =>
      rw [hcl] at hc
      simp only [Bool.not_eq_true'] at hc
      show (if Value.isDict v = true then some v else none) = none
      rw [hc]
      simp
  have hok : parseTry m = .ok { defaultResult with metadata_json := dumpsRecord m } := by
    unfold parseTry
    rw [hsel]
  exact parse_of_ok hok

def c4rec : RawRecord := [("foo", .str "bar")]

theorem claim4_witness :
    lookupKey c4rec "prompt" = none ∧ commentNotMapping c4rec = true ∧
    parse_comfyui_metadata c4rec = { defaultResult with metadata_json := dumpsRecord c4rec } :=
  ⟨rfl, rfl, claim4_no_graph_defaults c4rec rfl rfl⟩

def c5graph : Value := .dict [("1", .dict [])]

def c5recA : RawRecord :=
  [("prompt", c5graph), ("video_width", .int 1920), ("video_height", .int 1080),
   ("video_fps", .float (mkRat 24 1)), ("video_duration", .float (mkRat 11 2))]

def c5recB : RawRecord := [("prompt", c5graph)]

def c5recN : RawRecord :=
  [("video_width", .int 1920), ("video_height", .int 1080),
   ("video_fps", .float (mkRat 24 1)), ("video_duration", .float (mkRat 11 2))]

/-- Claim C5, counterexample: on the record of the claim's scenario —
video fields present and no workflow graph — the early return of lines
180-182 fires before `file_info` assembly, so `file_info` is the default
`""`, not the claimed pipe-delimited summary. -/
theorem claim5_counterexample :
    (parse_comfyui_metadata c5recN).file_info = "" ∧
    (parse_comfyui_metadata c5recN).file_info ≠ "1920x1080 | 24.00 FPS | 5.50s" :=
  ⟨rfl, by decide⟩

/-- Claim C5, amended: when a workflow graph is present (so the scan
reaches the assembly step), `file_info` is the pipe-delimited summary of
the present video fields — `WxH`, then FPS and duration each with two
decimals — and the literal `"PNG Image"` when none are present. -/
theorem claim5_file_info :
    (parse_comfyui_metadata c5recA).file_info = "1920x1080 | 24.00 FPS | 5.50s" ∧
    (parse_comfyui_metadata c5recB).file_info = "PNG Image" :=
  ⟨by decide, by decide⟩

def c6rec : RawRecord :=
  [("prompt", .dict [("1", .dict [("class_type", .str "RandomNoise"),
    ("inputs", .dict [("noise_seed", .str "oops")])])])]

/-- Claim C6, counterexample: on a record whose scan raises, the audit
field is left at the untouched default `"{}"` — the serialization of the
empty record — while the input record is non-empty and serializes
differently, so no deserialization of `metadata_json` can be structurally
equal to the input. -/
theorem claim6_counterexample :
    (parse_comfyui_metadata c6rec).metadata_json = "\x7b\x7d" ∧
    dumpsRecord c6rec ≠ "\x7b\x7d" ∧ c6rec ≠ ([] : RawRecord) :=
  ⟨rfl, by decide, by decide⟩

/-- Claim C6, amended: `metadata_json` is either the pretty-printed full
input record (whenever serialization is reached: the no-graph early
return, or a completed scan) — in which case it deserializes back to the
input — or it is left at the default `"{}"` when an exception aborts the
parse first. -/
theorem claim6_metadata_json (m : RawRecord) :
    (parse_comfyui_metadata m).metadata_json = dumpsRecord m ∨
    (parse_comfyui_metadata m).metadata_json = "\x7b\x7d" := by
  rcases parseTry_shape m with ⟨r, he, _, hj⟩ | ⟨r, he, _, _, hj⟩
  · rw [parse_of_ok he]
    exact Or.inl hj
  · rw [parse_of_error he]
    exact hj.symm

/-- Claim C7: `parse_comfyui_metadata` always returns a fully populated
result — either the `try` body completed, or its exception was caught and
the partially filled result (assembly fields still at their defaults,
`file_info = ""`) is returned; no error reaches the caller. -/
theorem claim7_always_returns (m : RawRecord) :
    ∃ r : PResult, parse_comfyui_metadata m = r ∧
      (parseTry m = .ok r ∨ (parseTry m = .error r ∧ r.file_info = "")) := by
  rcases parseTry_shape m with ⟨r, he, _, _⟩ | ⟨r, he, _, hf, _⟩
  · exact ⟨r, parse_of_ok he, Or.inl he⟩
  · exact ⟨r, parse_of_error he, Or.inr ⟨he, hf⟩⟩

/-- Claim C9: no extraction rule writes `scheduler`, so it is `""` on
every input, along every path. -/
theorem claim9_scheduler_empty (m : RawRecord) :
    (parse_comfyui_metadata m).scheduler = "" := by
  rcases parseTry_shape m with ⟨r, he, hs, _⟩ | ⟨r, he, hs, _, _⟩
  · rw [parse_of_ok he]
    exact hs
  · rw [parse_of_error he]
    exact hs

theorem init_fold_pos (ts : List Value) :
    (ts.foldl promptApply ⟨.str "", .str "", false, false⟩).pos = ts.headD (.str "") := by
  rw [foldl_promptApply_init]
  rcases ts with _ | ⟨a, _ | ⟨b, ts⟩⟩ <;> rfl

theorem init_fold_neg (ts : List Value) :
    (ts.foldl promptApply ⟨.str "", .str "", false, false⟩).neg = (ts.drop 1).headD (.str "") := by
  rw [foldl_promptApply_init]
  rcases ts with _ | ⟨a, _ | ⟨b, ts⟩⟩ <;> rfl

def c2bad : RawRecord :=
  [("prompt", .dict [
    ("1", .dict [("class_type", .str "CLIPTextEncode"), ("inputs", .dict [("text", .str "A")])]),
    ("2", .dict [("class_type", .str "BasicScheduler"), ("inputs", .dict [("steps", .str "x")])]),
    ("3", .dict [("class_type", .str "CLIPTextEncode"), ("inputs", .dict [("text", .str "B")])])])]

/-- Claim C2, counterexample: the text-encoding nodes of this graph hold
`"A"` then `"B"` in iteration order, but a failing steps coercion sits
between them, so the scan aborts after `"A"`: `negative_prompt` stays `""`
instead of the claimed `"B"`. -/
theorem claim2_counterexample :
    (parse_comfyui_metadata c2bad).positive_prompt = Value.str "A" ∧
    (parse_comfyui_metadata c2bad).negative_prompt = Value.str "" ∧
    (parse_comfyui_metadata c2bad).negative_prompt ≠ Value.str "B" :=
  ⟨rfl, rfl, by decide⟩

/-- Claim C2, amended: provided the node scan completes without an
internal exception, the first non-empty text of a text-encoding node (in
iteration order) becomes `positive_prompt`, the second becomes
`negative_prompt` (`""` when absent), and all later text-encoding nodes
leave both fields unchanged. -/
theorem claim2_two_text_nodes (rest : RawRecord) (nodes : List (String × Value))
    (st : ScanState) (h1 : nodes ≠ []) (h2 : scanNodes nodes initState = .ok st) :
    (parse_comfyui_metadata (("prompt", Value.dict nodes) :: rest)).positive_prompt =
      (textsOf nodes).headD (.str "") ∧
    (parse_comfyui_metadata (("prompt", Value.dict nodes) :: rest)).negative_prompt =
      ((textsOf nodes).drop 1).headD (.str "") := by
  have hq := scanNodes_quad nodes initState st h2
  have hinit : quadOf initState = ⟨.str "", .str "", false, false⟩ := rfl
  rw [hinit] at hq
  have hpos : st.res.positive_prompt = (textsOf nodes).headD (.str "") := by
    have h := congrArg Quad.pos hq
    rw [init_fold_pos] at h
    exact h
  have hneg : st.res.negative_prompt = ((textsOf nodes).drop 1).headD (.str "") := by
    have h := congrArg Quad.neg hq
    rw [init_fold_neg] at h
    exact h
  rw [parse_graph nodes rest h1, h2]
  cases hb : buildFileInfo (("prompt", Value.dict nodes) :: rest) with
  | error e => exact ⟨hpos, hneg⟩
  | ok fi => exact ⟨hpos, hneg⟩

def c2nodes : List (String × Value) :=
  [("1", .dict [("class_type", .str "CLIPTextEncode"), ("inputs", .dict [("text", .str "A")])]),
   ("2", .dict [("class_type", .str "CLIPTextEncode"), ("inputs", .dict [("text", .str "B")])])]

def c2st : ScanState :=
  ⟨{ defaultResult with positive_prompt := .str "A", negative_prompt := .str "B" }, true, true⟩

theorem claim2_witness :
    c2nodes ≠ [] ∧ scanNodes c2nodes initState = .ok c2st ∧
    ((parse_comfyui_metadata [("prompt", Value.dict c2nodes)]).positive_prompt =
       (textsOf c2nodes).headD (.str "") ∧
     (parse_comfyui_metadata [("prompt", Value.dict c2nodes)]).negative_prompt =
       ((textsOf c2nodes).drop 1).headD (.str "")) :=
  ⟨by decide, rfl, claim2_two_text_nodes [] c2nodes c2st (by decide) rfl⟩

def c3rec : RawRecord :=
  [("prompt", .dict [
    ("1", .dict [("class_type", .str "BasicScheduler"), ("inputs", .dict [("steps", .str "x")])]),
    ("2", .dict [("class_type", .str "KSamplerSelect"),
      ("inputs", .dict [("sampler_name", .str "euler")])])])]

/-- Claim C3, counterexample: the steps coercion of node 1 fails, and the
`KSamplerSelect` node after it is *not* processed — its `sampler_name`
`"euler"` is never assigned, and serialization is skipped too — refuting
the claim that the scan of the remaining nodes continues. -/
theorem claim3_counterexample :
    (parse_comfyui_metadata c3rec).sampler = Value.str "" ∧
    (parse_comfyui_metadata c3rec).sampler ≠ Value.str "euler" ∧
    (parse_comfyui_metadata c3rec).steps = 0 ∧
    (parse_comfyui_metadata c3rec).metadata_json = "\x7b\x7d" :=
  ⟨rfl, by decide, rfl, rfl⟩

/-- Claim C3, amended: a numeric coercion failure aborts the scan of the
remaining nodes — the result does not depend on what follows the failing
node — while the function still returns normally with the fields assigned
before the failure retained. -/
theorem claim3_abort (rest : RawRecord) (pre : List (String × Value)) (bid : String)
    (bad : Value) (post post2 : List (String × Value)) (st' : ScanState) (r : PResult)
    (h1 : scanNodes pre initState = .ok st') (h2 : scanNode st' bad = .error r) :
    parse_comfyui_metadata (("prompt", Value.dict (pre ++ (bid, bad) :: post)) :: rest) =
      parse_comfyui_metadata (("prompt", Value.dict (pre ++ (bid, bad) :: post2)) :: rest) ∧
    parse_comfyui_metadata (("prompt", Value.dict (pre ++ (bid, bad) :: post)) :: rest) = r := by
  have key : ∀ post0 : List (String × Value),
      scanNodes (pre ++ (bid, bad) :: post0) initState = .error r := by
    intro post0
    rw [scanNodes_append, h1]
    show scanNodes ((bid, bad) :: post0) st' = .error r
    unfold scanNodes
    rw [h2]
  have hne : ∀ post0 : List (String × Value), pre ++ (bid, bad) :: post0 ≠ [] := by
    intro post0 hcon
    exact absurd (List.append_eq_nil.mp hcon).2 (List.cons_ne_nil _ _)
  have hp : ∀ post0 : List (String × Value),
      parse_comfyui_metadata (("prompt", Value.dict (pre ++ (bid, bad) :: post0)) :: rest) = r := by
    intro post0
    rw [parse_graph _ _ (hne post0), key post0]
  exact ⟨(hp post).trans (hp post2).symm, hp post⟩

def c3badNode : Value :=
  .dict [("class_type", .str "BasicScheduler"), ("inputs", .dict [("steps", .str "x")])]

def c3samplerNode : Value :=
  .dict [("class_type", .str "KSamplerSelect"), ("inputs", .dict [("sampler_name", .str "euler")])]

theorem claim3_witness :
    scanNodes [] initState = .ok initState ∧
    scanNode initState c3badNode = .error defaultResult ∧
    (parse_comfyui_metadata [("prompt", Value.dict [("1", c3badNode), ("2", c3samplerNode)])] =
       parse_comfyui_metadata [("prompt", Value.dict [("1", c3badNode)])] ∧
     parse_comfyui_metadata [("prompt", Value.dict [("1", c3badNode), ("2", c3samplerNode)])] =
       defaultResult) :=
  ⟨rfl, rfl,
    claim3_abort [] [] "1" c3badNode [("2", c3samplerNode)] [] initState defaultResult rfl rfl⟩

def c8baseNodes : List (String × Value) :=
  [("1", .dict [("class_type", .str "CLIPTextEncode"), ("inputs", .dict [("text", .str "hello")])])]

def c8unknown : Value :=
  .dict [("class_type", .str "SomeFutureNode"), ("inputs", .dict [("x", .int 1)])]

/-- Claim C8, counterexample: adding an unrecognized node does change the
`ExtractionResult` — `metadata_json` serializes the whole input record,
node included — so the results of the two graphs are not equal. -/
theorem claim8_counterexample :
    parse_comfyui_metadata [("prompt", Value.dict (c8baseNodes ++ [("2", c8unknown)]))] ≠
      parse_comfyui_metadata [("prompt", Value.dict c8baseNodes)] ∧
    notRecognized c8unknown = true :=
  ⟨by decide, rfl⟩

/-- Claim C8, amended: inserting a node matching no extraction family
anywhere into a (non-empty) graph leaves every output field unchanged
except `metadata_json` (which reflects the full input record verbatim). -/
theorem claim8_unknown_frame (rest : RawRecord) (pre post : List (String × Value))
    (nid : String) (nd : Value) (hu : notRecognized nd = true) (hne : pre ++ post ≠ []) :
    visibleFields
        (parse_comfyui_metadata (("prompt", Value.dict (pre ++ (nid, nd) :: post)) :: rest)) =
      visibleFields (parse_comfyui_metadata (("prompt", Value.dict (pre ++ post)) :: rest)) := by
  have hne2 : pre ++ (nid, nd) :: post ≠ [] := by
    intro hcon
    exact absurd (List.append_eq_nil.mp hcon).2 (List.cons_ne_nil _ _)
  have hins := scanNodes_insert pre post nid nd (fun st => scanNode_unknown nd hu st) initState
  rw [parse_graph _ _ hne2, parse_graph _ _ hne, hins]
  cases hsc : scanNodes (pre ++ post) initState with
  | error r => rfl
  | ok st =>
    rw [buildFileInfo_prompt_value (Value.dict (pre ++ (nid, nd) :: post))
      (Value.dict (pre ++ post)) rest]
    cases hb : buildFileInfo (("prompt", Value.dict (pre ++ post)) :: rest) with
    | error e => rfl
    | ok fi => rfl

def c8wNodes : List (String × Value) :=
  [("1", .dict [("class_type", .str "KSamplerSelect"),
    ("inputs", .dict [("sampler_name", .str "euler")])])]

def c8wUnknown : Value := .dict [("class_type", .str "FancyNewNode")]

theorem claim8_witness :
    notRecognized c8wUnknown = true ∧ c8wNodes ++ [] ≠ [] ∧
    visibleFields
        (parse_comfyui_metadata [("prompt", Value.dict (c8wNodes ++ ("9", c8wUnknown) :: []))]) =
      visibleFields (parse_comfyui_metadata [("prompt", Value.dict (c8wNodes ++ []))]) :=
  ⟨rfl, by decide, claim8_unknown_frame [] c8wNodes [] "9" c8wUnknown rfl (by decide)⟩

/-- Claim C10: when a node raises partway through the scan, the function
returns the result as mutated by the nodes before the failure, with
`metadata_json` left at the untouched `"{}"` (serialization never ran) and
`file_info` left at `""` (assembly never ran). -/
theorem claim10_partial_abort (rest : RawRecord) (pre : List (String × Value)) (bid : String)
    (bad : Value) (post : List (String × Value)) (st' : ScanState) (r : PResult)
    (h1 : scanNodes pre initState = .ok st') (h2 : scanNode st' bad = .error r) :
    parse_comfyui_metadata (("prompt", Value.dict (pre ++ (bid, bad) :: post)) :: rest) = r ∧
    r.metadata_json = "\x7b\x7d" ∧ r.file_info = "" := by
  have hk1 := scanNodes_keeps pre initState
  rw [h1] at hk1
  have hk2 := scanNode_keeps st' bad
  rw [h2] at hk2
  have hkr := auxKeeps_trans hk2 hk1
  have key : scanNodes (pre ++ (bid, bad) :: post) initState = .error r := by
    rw [scanNodes_append, h1]
    show scanNodes ((bid, bad) :: post) st' = .error r
    unfold scanNodes
    rw [h2]
  have hne : pre ++ (bid, bad) :: post ≠ [] := by
    intro hcon
    exact absurd (List.append_eq_nil.mp hcon).2 (List.cons_ne_nil _ _)
  refine ⟨?_, hkr.1, hkr.2.1⟩
  rw [parse_graph _ _ hne, key]

def c10textNode : Value :=
  .dict [("class_type", .str "CLIPTextEncode"), ("inputs", .dict [("text", .str "P")])]

def c10badNode : Value :=
  .dict [("class_type", .str "CFGGuider"), ("inputs", .dict [("cfg", .str "x")])]

def c10samplerNode : Value :=
  .dict [("class_type", .str "KSamplerSelect"), ("inputs", .dict [("sampler_name", .str "euler")])]

def c10st : ScanState := ⟨{ defaultResult with positive_prompt := .str "P" }, true, false⟩

theorem claim10_witness :
    scanNodes [("1", c10textNode)] initState = .ok c10st ∧
    scanNode c10st c10badNode = .error c10st.res ∧
    (parse_comfyui_metadata
        [("prompt", Value.dict [("1", c10textNode), ("2", c10badNode), ("3", c10samplerNode)])] =
       c10st.res ∧
     c10st.res.metadata_json = "\x7b\x7d" ∧ c10st.res.file_info = "") :=
  ⟨rfl, rfl,
    claim10_partial_abort [] [("1", c10textNode)] "2" c10badNode [("3", c10samplerNode)]
      c10st c10st.res rfl rfl⟩

end ComfyMeta

